import Mathlib

/-
  Verification of the version-lifecycle and session-isolation core of the
  tkube repository (Go).  The Go sources under internal/teleport and
  internal/config are shallowly embedded: strings are lists of characters,
  the filesystem / network / subprocess environment is an explicit state
  record with oracle functions, and every embedded definition mirrors the
  corresponding Go function.
-/

namespace Tkube

/-- Strings are modelled as lists of characters ([]byte of the Go string;
all inputs of interest are ASCII). -/
abbrev Str := List Char

/-- Convenience: a Lean string literal as a character list. -/
def str (s : String) : Str := s.toList

/-! ### Embedding of the Go strings package (the operations the sources use) -/

/-- `stripPre pat s`: if `pat` is a prefix of `s`, the remainder, else `none`. -/
def stripPre : Str → Str → Option Str
  | [], s => some s
  | _ :: _, [] => none
  | p :: ps, c :: cs => if p = c then stripPre ps cs else none

/-- Go `strings.HasPrefix`. -/
def startsWith (pat s : Str) : Bool := (stripPre pat s).isSome

/-- Go `strings.TrimPrefix`: removes one leading occurrence of `pat`, if present. -/
def trimPfx (pat s : Str) : Str :=
  match stripPre pat s with
  | some r => r
  | none => s

/-- Go `strings.Index` (character index of the first occurrence of `pat`,
`none` for -1). -/
def indexOfSub (pat : Str) : Str → Option Nat
  | [] => if pat = [] then some 0 else none
  | c :: t =>
    if startsWith pat (c :: t) then some 0
    else (indexOfSub pat t).map (· + 1)

/-- Go `strings.Contains`. -/
def containsSub (pat s : Str) : Bool := (indexOfSub pat s).isSome

/-- Go `strings.Split(s, sep)` restricted to what the source reads from it:
`parts[1]` when `len(parts) > 1`, i.e. the chunk after the first occurrence
of `sep` and before the next one.  `none` when `sep` does not occur. -/
def afterFirstChunk (sep s : Str) : Option Str :=
  match indexOfSub sep s with
  | none => none
  | some i =>
    let rest := s.drop (i + sep.length)
    match indexOfSub sep rest with
    | none => some rest
    | some j => some (rest.take j)

/-- Prepend a character to the first field of a split result. -/
def consFst (x : Char) : List Str → List Str
  | [] => [[x]]
  | f :: rest => (x :: f) :: rest

/-- Go `strings.Split` on a single-character separator (used for lines and
for version components). -/
def splitCh (sep : Char) : Str → List Str
  | [] => [[]]
  | x :: xs =>
    if x = sep then [] :: splitCh sep xs else consFst x (splitCh sep xs)

/-- ASCII whitespace, as Go `unicode.IsSpace` behaves on the outputs at hand. -/
def isSpaceC (c : Char) : Bool :=
  c = ' ' || c = '\t' || c = '\n' || c = '\r' || c = '\x0b' || c = '\x0c'

/-- Go `strings.TrimSpace`. -/
def trimSpace (s : Str) : Str :=
  ((s.dropWhile isSpaceC).reverse.dropWhile isSpaceC).reverse

/-- Go `strings.ReplaceAll` with a single-character pattern and replacement. -/
def replaceAllCh (old new : Char) (s : Str) : Str :=
  s.map fun c => if c = old then new else c

/-- Go `strings.ToUpper` (ASCII). -/
def toUpperStr (s : Str) : Str := s.map Char.toUpper

/-- Go byte-lexicographic string `<`. -/
def strLt : Str → Str → Bool
  | [], [] => false
  | [], _ :: _ => true
  | _ :: _, [] => false
  | a :: as, b :: bs => if a = b then strLt as bs else decide (a < b)

/-- Go string `>=` (byte-lexicographic). -/
def strGe (x y : Str) : Bool := ! strLt x y

/-! ### Embedding of the Go path/filepath package (Unix separator)

`filepath.Join` is `Clean(strings.Join(elems[i:], "/"))` for the first
non-empty element `i`; `Clean` is Go's lexical path cleaning. -/

/-- Go `strings.Join` with separator "/". -/
def joinSegs : List Str → Str
  | [] => []
  | [x] => x
  | x :: y :: ys => x ++ '/' :: joinSegs (y :: ys)

/-- One step of Go `filepath.Clean`'s element processing: skip empty and "."
elements; on ".." pop the previous element unless there is none or it is
itself ".." (then: drop it when the path is rooted, keep it otherwise). -/
def cleanStep (isAbs : Bool) (stack : List Str) (seg : Str) : List Str :=
  if seg = [] then stack
  else if seg = ['.'] then stack
  else if seg = ['.', '.'] then
    if stack ≠ [] ∧ stack.getLast? ≠ some ['.', '.'] then stack.dropLast
    else if isAbs then stack else stack ++ [seg]
  else stack ++ [seg]

/-- Go `filepath.Clean` (Unix). -/
def cleanPath (s : Str) : Str :=
  if s = [] then ['.']
  else
    let isAbs := s.head? = some '/'
    let out := (splitCh '/' s).foldl (cleanStep isAbs) []
    if isAbs then '/' :: joinSegs out
    else if out = [] then ['.']
    else joinSegs out

/-- Go `filepath.Join` (Unix): drop leading empty elements, then clean the
"/"-joined remainder; all-empty input gives "". -/
def joinPath : List Str → Str
  | [] => []
  | e :: rest => if e = [] then joinPath rest else cleanPath (joinSegs (e :: rest))

/-- Go `filepath.Base` (Unix). -/
def baseName (p : Str) : Str :=
  if p = [] then ['.']
  else
    let q := (p.reverse.dropWhile (· = '/')).reverse
    if q = [] then ['/']
    else (q.reverse.takeWhile (· ≠ '/')).reverse

/-! ### Session directories (teleport.go: getSessionDir / ensureSessionDir)

`getSessionDir(env)` is `filepath.Join(homeDir, ".tkube", "sessions", env)`,
with "" when the home directory cannot be determined; `ensureSessionDir`
creates exactly that directory (mode 0700). -/

/-- teleport.go `getSessionDir`: the per-environment credential directory,
a raw path join of the home directory, the fixed sessions root and the
unvalidated environment name. -/
def getSessionDir (home : Option Str) (env : Str) : Str :=
  match home with
  | none => []
  | some h => joinPath [h, str ".tkube", str "sessions", env]

/-! ### Version detector (version_detector.go)

The three hostname patterns are Go regexps
  `teleport-v?(\d+)(?:\.(\d+))?(?:\.(\d+))?`
  `teleport(\d+)(?:\.(\d+))?(?:\.(\d+))?`
  `tsh-v?(\d+)(?:\.(\d+))?(?:\.(\d+))?`
searched with `FindStringSubmatch` (leftmost match).  Each is a literal
prefix, an optional `v` (for the first and third), then one to three
dot-separated maximal digit runs; that deterministic reading below is
exactly the regexp's leftmost-first semantics, since `v` is not a digit
and a failed optional `(?:\.(\d+))?` consumes nothing. -/

/-- The capture groups of one hostname pattern: major, optional minor,
optional patch. -/
structure VerGroups where
  major : Str
  minor : Option Str
  patch : Option Str
deriving DecidableEq

/-- `(\d+)`: the maximal nonempty leading digit run. -/
def matchDigits (s : Str) : Option (Str × Str) :=
  let d := s.takeWhile Char.isDigit
  if d = [] then none else some (d, s.dropWhile Char.isDigit)

/-- `(?:\.(\d+))?`: a literal dot followed by a digit run, or nothing. -/
def optDotNum : Str → Option Str × Str
  | [] => (none, [])
  | c :: r =>
    if c = '.' then
      match matchDigits r with
      | some (d, r2) => (some d, r2)
      | none => (none, c :: r)
    else (none, c :: r)

/-- `(\d+)(?:\.(\d+))?(?:\.(\d+))?` at the current position. -/
def numTail (s : Str) : Option VerGroups :=
  match matchDigits s with
  | none => none
  | some (d1, r1) =>
    let p2 := optDotNum r1
    let p3 := optDotNum p2.2
    some ⟨d1, p2.1, p3.1⟩

/-- `v?` before `numTail`: the optional `v` is greedy, and backtracking to
the empty alternative can never succeed because `v` is not a digit. -/
def vNumTail : Str → Option VerGroups
  | [] => numTail []
  | c :: r => if c = 'v' then numTail r else numTail (c :: r)

/-- Attempt the pattern `teleport-v?(\d+)(?:\.(\d+))?(?:\.(\d+))?` at the
start of `s`. -/
def tryTeleportDash (s : Str) : Option VerGroups :=
  match stripPre (str "teleport-") s with
  | none => none
  | some r => vNumTail r

/-- Attempt the pattern `teleport(\d+)(?:\.(\d+))?(?:\.(\d+))?` at the
start of `s`. -/
def tryTeleportPlain (s : Str) : Option VerGroups :=
  match stripPre (str "teleport") s with
  | none => none
  | some r => numTail r

/-- Attempt the pattern `tsh-v?(\d+)(?:\.(\d+))?(?:\.(\d+))?` at the start
of `s`. -/
def tryTshDash (s : Str) : Option VerGroups :=
  match stripPre (str "tsh-") s with
  | none => none
  | some r => vNumTail r

/-- Leftmost match: try the pattern at every position, left to right. -/
def scanFor (f : Str → Option VerGroups) : Str → Option VerGroups
  | [] => f []
  | c :: t =>
    match f (c :: t) with
    | some g => some g
    | none => scanFor f t

/-- version_detector.go: assembling `matches[1] ["." matches[2]] ["." matches[3]]`. -/
def buildVersion (g : VerGroups) : Str :=
  let v := g.major
  let v := match g.minor with
    | some d => v ++ '.' :: d
    | none => v
  match g.patch with
  | some d => v ++ '.' :: d
  | none => v

/-- version_detector.go `normalizeVersion`: strip a leading "v", then one
"teleport-", then one "tsh-" (each `strings.TrimPrefix`, applied once). -/
def normalizeVersion (version : Str) : Str :=
  let version := trimPfx (str "v") version
  let version := trimPfx (str "teleport-") version
  let version := trimPfx (str "tsh-") version
  version

/-- version_detector.go `getVersionFromEnvironment`: the global override
variables in order, then the two proxy-derived variables.  `osEnv` is the
process environment (`os.Getenv`; "" for unset). -/
def getVersionFromEnvironment (osEnv : Str → Str) (proxy : Str) : Str :=
  if osEnv (str "TELEPORT_VERSION") ≠ [] then
    normalizeVersion (osEnv (str "TELEPORT_VERSION"))
  else if osEnv (str "TSH_VERSION") ≠ [] then
    normalizeVersion (osEnv (str "TSH_VERSION"))
  else if osEnv (str "TELEPORT_TSH_VERSION") ≠ [] then
    normalizeVersion (osEnv (str "TELEPORT_TSH_VERSION"))
  else
    let proxyKey := toUpperStr (replaceAllCh '.' '_' (replaceAllCh ':' '_' proxy))
    if osEnv (proxyKey ++ str "_TELEPORT_VERSION") ≠ [] then
      normalizeVersion (osEnv (proxyKey ++ str "_TELEPORT_VERSION"))
    else if osEnv (proxyKey ++ str "_TSH_VERSION") ≠ [] then
      normalizeVersion (osEnv (proxyKey ++ str "_TSH_VERSION"))
    else []

/-- version_detector.go `extractVersionFromProxy`: the three hostname
patterns in order, first match wins, then the environment fallback;
`none` is the "could not extract version" error. -/
def extractVersionFromProxy (osEnv : Str → Str) (proxy : Str) : Option Str :=
  match scanFor tryTeleportDash proxy with
  | some g => some (buildVersion g)
  | none =>
    match scanFor tryTeleportPlain proxy with
    | some g => some (buildVersion g)
    | none =>
      match scanFor tryTshDash proxy with
      | some g => some (buildVersion g)
      | none =>
        let v := getVersionFromEnvironment osEnv proxy
        if v = [] then none else some v

/-- version_detector.go `DetectTSHVersion`: the remote query first
(`server` is `getVersionFromServer`'s already-normalized outcome, `none`
when the endpoint is unreachable or carries no version), then the
hostname/environment fallback. -/
def DetectTSHVersion (server : Str → Option Str) (osEnv : Str → Str)
    (proxy : Str) : Option Str :=
  match server proxy with
  | some v => some v
  | none => extractVersionFromProxy osEnv proxy

/-! ### Session state (teleport.go: SessionInfo / GetSessionInfo)

`GetSessionInfo` runs `tsh status --proxy=.. --user=..` in the isolated
credential home and parses its combined output; the parsing of that output
(teleport.go lines 145-191) is the pure function below. -/

/-- teleport.go `SessionInfo`. -/
structure SessionInfo where
  isAuthenticated : Bool
  validUntil : Str
  timeRemaining : Str
  isExpired : Bool
deriving DecidableEq

/-- The all-false/empty `SessionInfo` the Go code starts from (and returns
on any failure). -/
def emptySessionInfo : SessionInfo := ⟨false, [], [], false⟩

/-- Parsing of one trimmed "Valid until:" line's tail (`timeInfo`): the
"EXPIRED" marker overrides everything; otherwise the bracketed
`[valid for ...]` token and the timestamp before " [" are extracted. -/
def parseValidUntilInfo (timeInfo : Str) (info : SessionInfo) : SessionInfo :=
  if containsSub (str "EXPIRED") timeInfo then
    { info with isExpired := true, timeRemaining := str "EXPIRED", validUntil := timeInfo }
  else
    let tr :=
      if containsSub (str "[valid for ") timeInfo ∧ containsSub (str "]") timeInfo then
        let start := (indexOfSub (str "[valid for ") timeInfo).getD 0 + (str "[valid for ").length
        let stop := (indexOfSub (str "]") timeInfo).getD 0
        if start < stop then (timeInfo.drop start).take (stop - start)
        else info.timeRemaining
      else info.timeRemaining
    let vu :=
      match indexOfSub (str " [") timeInfo with
      | some bi => if 0 < bi then trimSpace (timeInfo.take bi) else timeInfo
      | none => timeInfo
    { info with timeRemaining := tr, validUntil := vu }

/-- The line scan of teleport.go lines 155-189: the first trimmed line
containing "Valid until:" is parsed (the Go loop breaks there); the field
after the marker is `strings.Split(line, "Valid until:")[1]`, trimmed. -/
def scanValidUntil (lines : List Str) (info : SessionInfo) : SessionInfo :=
  match lines with
  | [] => info
  | l :: rest =>
    let line := trimSpace l
    if containsSub (str "Valid until:") line then
      match afterFirstChunk (str "Valid until:") line with
      | some part1 => parseValidUntilInfo (trimSpace part1) info
      | none => info
    else scanValidUntil rest info

/-- teleport.go `GetSessionInfo`, output-parsing part (lines 145-191):
authenticated iff the output contains "logged in" or "Valid until"; if so,
the first "Valid until:" line is parsed. -/
def parseSessionOutput (out : Str) : SessionInfo :=
  if ¬ (containsSub (str "logged in") out ∨ containsSub (str "Valid until") out) then
    emptySessionInfo
  else
    scanValidUntil (splitCh '\n' out) { emptySessionInfo with isAuthenticated := true }

/-- teleport.go `GetSessionInfo`: any precondition or subprocess failure
(no tsh path, version not installed, no session dir, non-zero status exit)
yields the empty info; otherwise the combined output is parsed.
`statusOutput` is the outcome of the `tsh status` invocation. -/
def GetSessionInfo (statusOutput : Option Str) : SessionInfo :=
  match statusOutput with
  | none => emptySessionInfo
  | some out => parseSessionOutput out

/-! ### Configuration (config.go) and effective identity (teleport.go)

The `User`/`DefaultUser` fields read by teleport.go's `getEffectiveUser`
are carried by the config layer (documented in the repository README as
`"user"` per environment and a top-level `"default_user"`). -/

/-- config.go `Environment` (with the `user` field teleport.go reads). -/
structure EnvConfig where
  proxy : Str
  tshVersion : Str
  user : Str
deriving DecidableEq

/-- config.go `Config` (with the `default_user` field teleport.go reads). -/
structure Config where
  environments : List (Str × EnvConfig)
  defaultUser : Str
  autoLogin : Bool
deriving DecidableEq

/-- `config.Environments[env]` (map lookup as association-list lookup). -/
def lookupEnv (c : Config) (name : Str) : Option EnvConfig :=
  (c.environments.find? (fun e => e.1 = name)).map (·.2)

/-- config.go `UpdateEnvironmentTSHVersion`'s write: replace the
environment's `TSHVersion`, all other fields and entries unchanged. -/
def setEnvVersion (c : Config) (name ver : Str) : Config :=
  { c with environments :=
      c.environments.map fun e =>
        if e.1 = name then (e.1, { e.2 with tshVersion := ver }) else e }

/-- The OS identity sources `getSystemUser` consults. -/
structure OSEnv where
  userVar : Str
  homeDir : Option Str

/-- teleport.go `getSystemUser`: `$USER`, else the base name of the home
directory, else "unknown". -/
def getSystemUser (os : OSEnv) : Str :=
  let currentUser := os.userVar
  let currentUser :=
    if currentUser = [] then
      match os.homeDir with
      | some h => baseName h
      | none => currentUser
    else currentUser
  if currentUser = [] then str "unknown" else currentUser

/-- teleport.go `getEffectiveUser`: environment-specific user, else default
user, else system user; a config-load failure also falls back to the
system user.  `cfg = none` models `configManager.Load()` failing. -/
def getEffectiveUser (cfg : Option Config) (os : OSEnv) (env : Str) : Str :=
  match cfg with
  | none => getSystemUser os
  | some config =>
    match lookupEnv config env with
    | some envConfig =>
      if envConfig.user ≠ [] then envConfig.user
      else if config.defaultUser ≠ [] then config.defaultUser
      else getSystemUser os
    | none =>
      if config.defaultUser ≠ [] then config.defaultUser
      else getSystemUser os

/-! ### Package resolver (installer.go: getPackageInfo / getPkgPackageInfo) -/

/-- installer.go `PackageInfo`. -/
structure PackageInfo where
  version : Str
  url : Str
  ext : Str
deriving DecidableEq

/-- installer.go `getPackageInfo`: the primary tar.gz descriptor for
(version, GOOS, GOARCH); `none` is the "unsupported operating system" /
"invalid version format" error. -/
def getPackageInfo (goos goarch : Str) (version : Str) : Option PackageInfo :=
  let version := trimPfx (str "v") version
  if splitCh '.' version = [] then none
  else if goos = str "darwin" then
    let arch := if goarch = str "amd64" then str "x86_64" else goarch
    let packageName :=
      str "teleport-v" ++ version ++ str "-darwin-" ++ arch ++ str "-bin.tar.gz"
    some ⟨version, str "https://cdn.teleport.dev/" ++ packageName, str "tar.gz"⟩
  else if goos = str "linux" then
    let arch := if goarch = str "amd64" then str "x86_64" else goarch
    let packageName :=
      str "teleport-v" ++ version ++ str "-linux-" ++ arch ++ str "-bin.tar.gz"
    some ⟨version, str "https://cdn.teleport.dev/" ++ packageName, str "tar.gz"⟩
  else none

/-- installer.go `getPkgPackageInfo`: the secondary macOS .pkg descriptor.
The naming threshold is the Go string comparison `majorVersionStr >= "17"`
on the first dot-separated component. -/
def getPkgPackageInfo (version : Str) : Option PackageInfo :=
  let version := trimPfx (str "v") version
  match splitCh '.' version with
  | [] => none
  | majorVersionStr :: _ =>
    let packageName :=
      if strGe majorVersionStr (str "17") then str "teleport-" ++ version ++ str ".pkg"
      else str "tsh-" ++ version ++ str ".pkg"
    some ⟨version, str "https://cdn.teleport.dev/" ++ packageName, str "pkg"⟩

/-! ### Installer state (installer.go)

The filesystem is a state record of characteristic functions (regular
files, executable-bit files, directories) plus the registry's directory
listing and deterministic oracles for the outcomes of network and
subprocess steps; `downloads` counts download attempts (network
activity). -/

/-- One `os.ReadDir` entry of the registry root. -/
structure DirEntry where
  name : Str
  isDir : Bool
deriving DecidableEq

/-- Outcome of one `http.Client.Get` + body copy in `downloadPackage`. -/
inductive DlResult
  | ok
  | connErr
  | httpErr
  | copyErr
deriving DecidableEq

/-- The installer's world: filesystem, registry listing, and step oracles. -/
structure World where
  files : Str → Bool
  execs : Str → Bool
  dirs : Str → Bool
  entries : List DirEntry
  readDirOk : Bool
  net : Str → DlResult
  extractOk : Str → Bool
  hasTsh : Str → Bool
  copyOk : Str → Bool
  chmodOk : Str → Bool
  probeOk : Str → Bool
  downloads : Nat

/-- Create a regular file (no executable bit). -/
def addFile (p : Str) (w : World) : World :=
  { w with files := fun q => if q = p then true else w.files q }

/-- Remove a file. -/
def removeFile (p : Str) (w : World) : World :=
  { w with files := fun q => if q = p then false else w.files q }

/-- Set the executable bit (`os.Chmod 0755`). -/
def addExec (p : Str) (w : World) : World :=
  { w with execs := fun q => if q = p then true else w.execs q }

/-- Create a directory (`os.MkdirAll`). -/
def addDir (p : Str) (w : World) : World :=
  { w with dirs := fun q => if q = p then true else w.dirs q }

/-- The failing stage of an installation attempt (error taxonomy). -/
inductive InstallErr
  | download
  | extract
  | notFound
  | chmod
  | unsupportedOS
deriving DecidableEq

/-- installer.go `NewTSHInstaller`'s state: the registry root
`<home>/.tkube/tsh`. -/
structure TSHInstaller where
  baseDir : Str

/-- installer.go `GetTSHPath`. -/
def GetTSHPath (ins : TSHInstaller) (version : Str) : Str :=
  joinPath [ins.baseDir, version, str "tsh"]

/-- installer.go `verifyTSHBinary`: stat, stat again, `mode&0111 != 0`,
then a live `tsh version --client` probe. -/
def verifyTSHBinary (w : World) (tshPath : Str) : Bool :=
  w.files tshPath && w.files tshPath && w.execs tshPath && w.probeOk tshPath

/-- installer.go `IsVersionInstalled`: the canonical binary exists in the
version directory and `verifyTSHBinary` accepts it. -/
def IsVersionInstalled (ins : TSHInstaller) (w : World) (version : Str) : Bool :=
  let versionDir := joinPath [ins.baseDir, version]
  let tshPath := joinPath [versionDir, str "tsh"]
  w.files tshPath && verifyTSHBinary w tshPath

/-- installer.go `GetInstalledVersions`: `[]` when the registry root does
not exist; a read-directory failure is an error (`none`); otherwise the
subdirectory names whose version passes `IsVersionInstalled`. -/
def GetInstalledVersions (ins : TSHInstaller) (w : World) : Option (List Str) :=
  if w.dirs ins.baseDir = false then some []
  else if w.readDirOk = false then none
  else some ((w.entries.filter fun e => e.isDir && IsVersionInstalled ins w e.name).map (·.name))

/-- installer.go `downloadPackage`: one network download attempt to
`destPath`.  A connection or HTTP-status failure creates nothing; a body
copy failure leaves the partially written file (the Go code has no removal
on that path); success leaves the downloaded archive. -/
def downloadPackage (url destPath : Str) (w : World) : World × Option InstallErr :=
  let w1 := { w with downloads := w.downloads + 1 }
  match w.net url with
  | .connErr => (w1, some .download)
  | .httpErr => (w1, some .download)
  | .copyErr => (addFile destPath w1, some .download)
  | .ok => (addFile destPath w1, none)

/-- installer.go `extractFromTarGz` / `extractFromPkg`: extract the archive
into a temp dir (removed again by the deferred cleanup in both success and
failure), locate the tsh binary, and `copyTSHToDestination` it to
`destDir/tsh` (copy, then chmod 0755).  A failed copy leaves the partially
written destination file; a failed chmod leaves it without the executable
bit. -/
def extractPackage (packagePath destDir : Str) (w : World) : World × Option InstallErr :=
  if w.extractOk packagePath = false then (w, some .extract)
  else if w.hasTsh packagePath = false then (w, some .notFound)
  else
    let tshPath := joinPath [destDir, str "tsh"]
    if w.copyOk packagePath = false then (addFile tshPath w, some .extract)
    else
      let w2 := addFile tshPath w
      if w2.chmodOk tshPath = false then (w2, some .extract)
      else (addExec tshPath w2, none)

/-- installer.go `tryInstallPackage`: download to the per-version scratch
path, extract/locate/copy, stat the canonical binary, chmod it, and delete
the scratch archive.  The archive is removed on extraction and stat
failures (`os.Remove(packagePath)`), but not on download or chmod
failures. -/
def tryInstallPackage (pkg : PackageInfo) (versionDir : Str) (w : World) :
    World × Option InstallErr :=
  let packagePath :=
    joinPath [versionDir, str "teleport-" ++ pkg.version ++ '.' :: pkg.ext]
  match downloadPackage pkg.url packagePath w with
  | (w1, some e) => (w1, some e)
  | (w1, none) =>
    match extractPackage packagePath versionDir w1 with
    | (w2, some e) => (removeFile packagePath w2, some e)
    | (w2, none) =>
      let tshPath := joinPath [versionDir, str "tsh"]
      if w2.files tshPath = false then (removeFile packagePath w2, some .notFound)
      else if w2.chmodOk tshPath = false then (w2, some .chmod)
      else (removeFile packagePath (addExec tshPath w2), none)

/-- installer.go `InstallTSH`: create the version directory, try the
primary tar.gz package, and on macOS retry with the secondary .pkg
descriptor before giving up. -/
def InstallTSH (goos goarch : Str) (ins : TSHInstaller) (version : Str)
    (w : World) : World × Option InstallErr :=
  let versionDir := joinPath [ins.baseDir, version]
  let w := addDir versionDir w
  match getPackageInfo goos goarch version with
  | some pkg =>
    match tryInstallPackage pkg versionDir w with
    | (w1, none) => (w1, none)
    | (w1, some e) =>
      if goos = str "darwin" then
        match getPkgPackageInfo version with
        | some pkg2 => tryInstallPackage pkg2 versionDir w1
        | none => (w1, some e)
      else (w1, some e)
  | none =>
    if goos = str "darwin" then
      match getPkgPackageInfo version with
      | some pkg2 => tryInstallPackage pkg2 versionDir w
      | none => (w, some .unsupportedOS)
    else (w, some .unsupportedOS)

/-- installer.go `AutoInstallForEnvironment` (the `EnsureInstalled`
contract): verified-installed versions return immediately; otherwise
`InstallTSH` runs. -/
def AutoInstallForEnvironment (goos goarch : Str) (ins : TSHInstaller)
    (envName requiredVersion : Str) (w : World) : World × Option InstallErr :=
  if IsVersionInstalled ins w requiredVersion then (w, none)
  else InstallTSH goos goarch ins requiredVersion w

/-- installer.go `UninstallVersion`: error when the version directory does
not exist, otherwise remove it. -/
def UninstallVersion (ins : TSHInstaller) (version : Str) (w : World) :
    World × Bool :=
  let versionDir := joinPath [ins.baseDir, version]
  if w.dirs versionDir = false then (w, false)
  else
    ({ w with dirs := fun q => if q = versionDir then false else w.dirs q,
              files := fun q => if startsWith (versionDir ++ ['/']) q then false else w.files q },
     true)

/-! ### Configuration-bearing operations (teleport.go: EnsureTSHVersion)

The state carries the persisted configuration and oracles for the
collaborators `EnsureTSHVersion` invokes: version detection
(`DetectTSHVersion` over the network), the installer's
`IsVersionInstalled` / `InstallTSH` (which act on the version registry,
never on the configuration file), and the load/save outcomes of the
config layer. -/

/-- The state seen by the config-bearing client operations. -/
structure CWorld where
  cfg : Config
  loadOk : Bool
  saveOk : Bool
  detect : Str → Option Str
  installed : Str → Bool
  installOk : Str → Bool

/-- config.go `UpdateEnvironmentTSHVersion`: load, look the environment
up, replace its version field, save.  The Bool is success. -/
def UpdateEnvironmentTSHVersion (cw : CWorld) (envName tshVersion : Str) :
    CWorld × Bool :=
  if cw.loadOk = false then (cw, false)
  else
    match lookupEnv cw.cfg envName with
    | none => (cw, false)
    | some _ =>
      if cw.saveOk = false then (cw, false)
      else ({ cw with cfg := setEnvVersion cw.cfg envName tshVersion }, true)

/-- teleport.go `EnsureTSHVersion`: load the configuration; fail for an
unknown environment; when no version is pinned, auto-detect one from the
proxy and persist it via `UpdateEnvironmentTSHVersion`; finally install
the (pinned or detected) version unless it is already installed.  The
Bool is success. -/
def EnsureTSHVersion (cw : CWorld) (env : Str) : CWorld × Bool :=
  if cw.loadOk = false then (cw, false)
  else
    match lookupEnv cw.cfg env with
    | none => (cw, false)
    | some envConfig =>
      if envConfig.tshVersion = [] then
        match cw.detect envConfig.proxy with
        | none => (cw, false)
        | some version =>
          let r := UpdateEnvironmentTSHVersion cw env version
          if r.2 = false then (r.1, false)
          else
            if r.1.installed version then (r.1, true)
            else (r.1, r.1.installOk version)
      else
        if cw.installed envConfig.tshVersion then (cw, true)
        else (cw, cw.installOk envConfig.tshVersion)

/-! ## Helper lemmas -/

/-- `parseValidUntilInfo` never touches the `isAuthenticated` field. -/
lemma parseValidUntilInfo_auth (t : Str) (i : SessionInfo) :
    (parseValidUntilInfo t i).isAuthenticated = i.isAuthenticated := by
  unfold parseValidUntilInfo
  split <;> rfl

/-- The "Valid until" line scan never touches the `isAuthenticated` field. -/
lemma scanValidUntil_auth (lines : List Str) (i : SessionInfo) :
    (scanValidUntil lines i).isAuthenticated = i.isAuthenticated := by
  induction lines with
  | nil => rfl
  | cons l rest ih =>
    unfold scanValidUntil
    dsimp only
    split
    · split
      · exact parseValidUntilInfo_auth _ _
      · rfl
    · exact ih

/-- Files after writing and then deleting the same path: only that path is
cleared. -/
lemma removeFile_addFile_files (P q : Str) (w : World) :
    (removeFile P (addFile P w)).files q = if q = P then false else w.files q := by
  by_cases h : q = P <;> simp [removeFile, addFile, h]

/-- `removeFile` and `addFile` do not touch executable bits. -/
lemma removeFile_addFile_execs (P q : Str) (w : World) :
    (removeFile P (addFile P w)).execs q = w.execs q := rfl

/-- A binary without the executable bit never verifies. -/
lemma verify_of_execs_false (w : World) (tshPath : Str)
    (h : w.execs tshPath = false) : verifyTSHBinary w tshPath = false := by
  simp [verifyTSHBinary, h]

/-- Association-list form of `setEnvVersion`'s effect on lookups. -/
lemma find_setVersion (l : List (Str × EnvConfig)) (name ver n : Str) :
    ((l.map fun e => if e.1 = name then (e.1, { e.2 with tshVersion := ver }) else e).find?
        fun e => e.1 = n) =
      (if n = name
        then (l.find? fun e => e.1 = n).map
          fun e => (e.1, { e.2 with tshVersion := ver })
        else l.find? fun e => e.1 = n) := by
  induction l with
  | nil => by_cases h : n = name <;> simp [h]
  | cons e t ih =>
    rw [List.map_cons]
    by_cases hen : e.1 = n
    · have hp1 : ((if e.1 = name then (e.1, { e.2 with tshVersion := ver }) else e).1 = n) := by
        split <;> exact hen
      rw [List.find?_cons_of_pos _ (by simpa using hp1),
        show (e :: t).find? (fun e => e.1 = n) = some e from
          List.find?_cons_of_pos _ (by simpa using hen)]
      by_cases hnn : n = name
      · have he1 : e.1 = name := hen.trans hnn
        rw [if_pos hnn]
        simp [he1]
      · have he1 : ¬ e.1 = name := fun h => hnn (hen.symm.trans h)
        rw [if_neg hnn]
        simp [he1]
    · have hp1 : ¬ ((if e.1 = name then (e.1, { e.2 with tshVersion := ver }) else e).1 = n) := by
        split <;> exact hen
      rw [List.find?_cons_of_neg _ (by simpa using hp1),
        show (e :: t).find? (fun e => e.1 = n) = t.find? (fun e => e.1 = n) from
          List.find?_cons_of_neg _ (by simpa using hen), ih]

/-- `setEnvVersion`'s effect on environment lookups: only the named
environment's version field changes. -/
lemma lookupEnv_setEnvVersion (c : Config) (name ver n : Str) :
    lookupEnv (setEnvVersion c name ver) n =
      (if n = name
        then (lookupEnv c n).map fun e => { e with tshVersion := ver }
        else lookupEnv c n) := by
  unfold lookupEnv setEnvVersion
  dsimp only
  rw [find_setVersion]
  by_cases h : n = name
  · rw [if_pos h, if_pos h]
    cases c.environments.find? fun e => e.1 = n <;> simp
  · rw [if_neg h, if_neg h]

/-- `tryInstallPackage` outcome: connection failure. -/
lemma tip_connErr (pkg : PackageInfo) (vd : Str) (w : World)
    (hnet : w.net pkg.url = DlResult.connErr) :
    tryInstallPackage pkg vd w =
      ({ w with downloads := w.downloads + 1 }, some InstallErr.download) := by
  unfold tryInstallPackage downloadPackage
  dsimp only
  rw [hnet]

/-- `tryInstallPackage` outcome: HTTP-status failure. -/
lemma tip_httpErr (pkg : PackageInfo) (vd : Str) (w : World)
    (hnet : w.net pkg.url = DlResult.httpErr) :
    tryInstallPackage pkg vd w =
      ({ w with downloads := w.downloads + 1 }, some InstallErr.download) := by
  unfold tryInstallPackage downloadPackage
  dsimp only
  rw [hnet]

/-- `tryInstallPackage` outcome: the body copy fails, leaving the partial
scratch archive. -/
lemma tip_copyErr (pkg : PackageInfo) (vd : Str) (w : World)
    (hnet : w.net pkg.url = DlResult.copyErr) :
    tryInstallPackage pkg vd w =
      (addFile (joinPath [vd, str "teleport-" ++ pkg.version ++ '.' :: pkg.ext])
        { w with downloads := w.downloads + 1 }, some InstallErr.download) := by
  unfold tryInstallPackage downloadPackage
  dsimp only
  rw [hnet]

/-- `tryInstallPackage` outcome: extraction fails; the scratch archive is
removed again. -/
lemma tip_extractFail (pkg : PackageInfo) (vd : Str) (w : World)
    (hnet : w.net pkg.url = DlResult.ok)
    (hex : w.extractOk (joinPath [vd, str "teleport-" ++ pkg.version ++ '.' :: pkg.ext]) = false) :
    tryInstallPackage pkg vd w =
      (removeFile (joinPath [vd, str "teleport-" ++ pkg.version ++ '.' :: pkg.ext])
        (addFile (joinPath [vd, str "teleport-" ++ pkg.version ++ '.' :: pkg.ext])
          { w with downloads := w.downloads + 1 }),
       some InstallErr.extract) := by
  unfold tryInstallPackage downloadPackage
  dsimp only
  rw [hnet]
  dsimp only
  unfold extractPackage
  simp only [addFile]
  rw [hex]
  simp [removeFile, addFile]

/-- `tryInstallPackage` outcome: no tsh binary in the extracted tree; the
scratch archive is removed again. -/
lemma tip_noTsh (pkg : PackageInfo) (vd : Str) (w : World)
    (hnet : w.net pkg.url = DlResult.ok)
    (hex : w.extractOk (joinPath [vd, str "teleport-" ++ pkg.version ++ '.' :: pkg.ext]) = true)
    (hht : w.hasTsh (joinPath [vd, str "teleport-" ++ pkg.version ++ '.' :: pkg.ext]) = false) :
    tryInstallPackage pkg vd w =
      (removeFile (joinPath [vd, str "teleport-" ++ pkg.version ++ '.' :: pkg.ext])
        (addFile (joinPath [vd, str "teleport-" ++ pkg.version ++ '.' :: pkg.ext])
          { w with downloads := w.downloads + 1 }),
       some InstallErr.notFound) := by
  unfold tryInstallPackage downloadPackage
  dsimp only
  rw [hnet]
  dsimp only
  unfold extractPackage
  simp only [addFile]
  rw [hex, hht]
  simp [removeFile, addFile]

/-- `tryInstallPackage` outcome: copying the located binary fails, leaving
a partial, non-executable destination file; the archive is removed. -/
lemma tip_copyFail (pkg : PackageInfo) (vd : Str) (w : World)
    (hnet : w.net pkg.url = DlResult.ok)
    (hex : w.extractOk (joinPath [vd, str "teleport-" ++ pkg.version ++ '.' :: pkg.ext]) = true)
    (hht : w.hasTsh (joinPath [vd, str "teleport-" ++ pkg.version ++ '.' :: pkg.ext]) = true)
    (hcp : w.copyOk (joinPath [vd, str "teleport-" ++ pkg.version ++ '.' :: pkg.ext]) = false) :
    tryInstallPackage pkg vd w =
      (removeFile (joinPath [vd, str "teleport-" ++ pkg.version ++ '.' :: pkg.ext])
        (addFile (joinPath [vd, str "tsh"])
          (addFile (joinPath [vd, str "teleport-" ++ pkg.version ++ '.' :: pkg.ext])
            { w with downloads := w.downloads + 1 })),
       some InstallErr.extract) := by
  unfold tryInstallPackage downloadPackage
  dsimp only
  rw [hnet]
  dsimp only
  unfold extractPackage
  simp only [addFile]
  rw [hex, hht, hcp]
  simp [removeFile, addFile]

/-- `tryInstallPackage` outcome: the chmod of the copied binary fails,
leaving it without the executable bit; the archive is removed. -/
lemma tip_chmodFail (pkg : PackageInfo) (vd : Str) (w : World)
    (hnet : w.net pkg.url = DlResult.ok)
    (hex : w.extractOk (joinPath [vd, str "teleport-" ++ pkg.version ++ '.' :: pkg.ext]) = true)
    (hht : w.hasTsh (joinPath [vd, str "teleport-" ++ pkg.version ++ '.' :: pkg.ext]) = true)
    (hcp : w.copyOk (joinPath [vd, str "teleport-" ++ pkg.version ++ '.' :: pkg.ext]) = true)
    (hch : w.chmodOk (joinPath [vd, str "tsh"]) = false) :
    tryInstallPackage pkg vd w =
      (removeFile (joinPath [vd, str "teleport-" ++ pkg.version ++ '.' :: pkg.ext])
        (addFile (joinPath [vd, str "tsh"])
          (addFile (joinPath [vd, str "teleport-" ++ pkg.version ++ '.' :: pkg.ext])
            { w with downloads := w.downloads + 1 })),
       some InstallErr.extract) := by
  unfold tryInstallPackage downloadPackage
  dsimp only
  rw [hnet]
  dsimp only
  unfold extractPackage
  simp only [addFile]
  rw [hex, hht, hcp, hch]
  simp [removeFile, addFile]

/-- `tryInstallPackage` outcome: full success — the binary is in place with
the executable bit, and the scratch archive is removed. -/
lemma tip_success (pkg : PackageInfo) (vd : Str) (w : World)
    (hnet : w.net pkg.url = DlResult.ok)
    (hex : w.extractOk (joinPath [vd, str "teleport-" ++ pkg.version ++ '.' :: pkg.ext]) = true)
    (hht : w.hasTsh (joinPath [vd, str "teleport-" ++ pkg.version ++ '.' :: pkg.ext]) = true)
    (hcp : w.copyOk (joinPath [vd, str "teleport-" ++ pkg.version ++ '.' :: pkg.ext]) = true)
    (hch : w.chmodOk (joinPath [vd, str "tsh"]) = true) :
    tryInstallPackage pkg vd w =
      (removeFile (joinPath [vd, str "teleport-" ++ pkg.version ++ '.' :: pkg.ext])
        (addExec (joinPath [vd, str "tsh"])
          (addExec (joinPath [vd, str "tsh"])
            (addFile (joinPath [vd, str "tsh"])
              (addFile (joinPath [vd, str "teleport-" ++ pkg.version ++ '.' :: pkg.ext])
                { w with downloads := w.downloads + 1 })))),
       none) := by
  unfold tryInstallPackage downloadPackage
  dsimp only
  rw [hnet]
  dsimp only
  unfold extractPackage
  simp only [addFile, addExec]
  rw [hex, hht, hcp, hch]
  simp [removeFile, addFile, addExec, hex, hht, hcp, hch]

/-- `splitCh` never returns the empty list. -/
lemma splitCh_ne_nil (c : Char) (s : Str) : splitCh c s ≠ [] := by
  cases s with
  | nil => simp [splitCh]
  | cons x xs =>
    simp only [splitCh]
    by_cases hx : x = c
    · simp [hx]
    · rw [if_neg hx]
      cases h : splitCh c xs with
      | nil => simp [consFst]
      | cons f rest => simp [consFst]

/-- Prepending to the first field commutes with appending more fields. -/
lemma consFst_append (x : Char) (l l' : List Str) (h : l ≠ []) :
    consFst x (l ++ l') = consFst x l ++ l' := by
  cases l with
  | nil => exact absurd rfl h
  | cons f rest => rfl

/-- Splitting around an explicit separator occurrence. -/
lemma splitCh_append_cons (c : Char) (xs ys : Str) :
    splitCh c (xs ++ c :: ys) = splitCh c xs ++ splitCh c ys := by
  induction xs with
  | nil =>
    show splitCh c (c :: ys) = splitCh c [] ++ splitCh c ys
    simp only [splitCh, if_pos rfl]
    rfl
  | cons x xs ih =>
    show splitCh c (x :: (xs ++ c :: ys)) = splitCh c (x :: xs) ++ splitCh c ys
    simp only [splitCh]
    rw [ih]
    by_cases hx : x = c
    · simp [hx]
    · rw [if_neg hx, if_neg hx, consFst_append x _ _ (splitCh_ne_nil c xs)]

/-- A separator-free string splits to itself. -/
lemma splitCh_no_sep (c : Char) (s : Str) (h : c ∉ s) : splitCh c s = [s] := by
  induction s with
  | nil => rfl
  | cons x xs ih =>
    have hx : ¬ x = c := fun hh => h (by rw [hh]; exact List.mem_cons_self c xs)
    have hxs : c ∉ xs := fun hh => h (List.mem_cons_of_mem _ hh)
    simp only [splitCh]
    rw [if_neg hx, ih hxs]
    rfl

/-- The head of an append with a nonempty left part. -/
lemma head?_append_left (S t : Str) (h : S ≠ []) : (S ++ t).head? = S.head? := by
  cases S with
  | nil => exact absurd rfl h
  | cons a as => rfl

/-- Joining with a final extra segment. -/
lemma joinSegs_append_single (T : List Str) (n : Str) :
    joinSegs (T ++ [n]) = (if T = [] then [] else joinSegs T ++ ['/']) ++ n := by
  induction T with
  | nil => simp [joinSegs]
  | cons t ts ih =>
    cases ts with
    | nil => simp [joinSegs]
    | cons u us =>
      have hts : ¬ (u :: us : List Str) = [] := by simp
      rw [if_neg hts] at ih
      show joinSegs (t :: ((u :: us) ++ [n])) =
        (if (t :: u :: us : List Str) = [] then [] else joinSegs (t :: u :: us) ++ ['/']) ++ n
      rw [if_neg (by simp)]
      have hcons : (u :: us) ++ [n] = u :: (us ++ [n]) := rfl
      rw [hcons]
      show t ++ '/' :: joinSegs (u :: (us ++ [n])) =
        ((t ++ '/' :: joinSegs (u :: us)) ++ ['/']) ++ n
      rw [← hcons, ih]
      simp [List.append_assoc]

/-- A normal segment is pushed by the cleaning step. -/
lemma cleanStep_good (isAbs : Bool) (T : List Str) (n : Str)
    (h1 : n ≠ []) (h2 : n ≠ ['.']) (h3 : n ≠ ['.', '.']) :
    cleanStep isAbs T n = T ++ [n] := by
  unfold cleanStep
  rw [if_neg h1, if_neg h2, if_neg h3]

/-- An environment name that stays a single path element: no separator,
nonempty, and neither "." nor "..". -/
def goodSeg (n : Str) : Prop :=
  ('/' ∉ n) ∧ n ≠ [] ∧ n ≠ ['.'] ∧ n ≠ ['.', '.']

instance : DecidablePred goodSeg := fun n => by
  unfold goodSeg
  infer_instance

/-- The part of a cleaned joined path that precedes a final normal
segment: it depends only on everything before that segment. -/
def cpPre (S : Str) : Str :=
  let isAbs := S.head? = some '/'
  let T := (splitCh '/' S).foldl (cleanStep isAbs) []
  (if isAbs then ['/'] else []) ++ (if T = [] then [] else joinSegs T ++ ['/'])

/-- Cleaning a path that ends in a separator plus a normal segment:
the segment is appended verbatim after a prefix depending only on the
rest. -/
lemma cleanPath_append_goodSeg (S n : Str) (hS : S ≠ []) (hn : goodSeg n) :
    cleanPath (S ++ '/' :: n) = cpPre S ++ n := by
  obtain ⟨hsl, h1, h2, h3⟩ := hn
  unfold cleanPath cpPre
  have hne : ¬ (S ++ '/' :: n) = [] := by cases S <;> simp
  rw [if_neg hne]
  dsimp only
  rw [head?_append_left S ('/' :: n) hS]
  rw [splitCh_append_cons, splitCh_no_sep '/' n hsl]
  rw [List.foldl_append]
  simp only [List.foldl_cons, List.foldl_nil]
  rw [cleanStep_good _ _ _ h1 h2 h3]
  rw [joinSegs_append_single]
  by_cases hab : S.head? = some '/' <;> simp [hab]

/-- `getSessionDir` on a single-element environment name: the name is
appended verbatim to a prefix that depends only on the home directory. -/
lemma getSessionDir_good (home n : Str) (hn : goodSeg n) :
    getSessionDir (some home) n =
      (if home = [] then cpPre (str ".tkube" ++ '/' :: str "sessions")
       else cpPre (home ++ '/' :: (str ".tkube" ++ '/' :: str "sessions"))) ++ n := by
  unfold getSessionDir joinPath
  by_cases hh : home = []
  · rw [if_pos hh, if_pos hh]
    show cleanPath (joinSegs [str ".tkube", str "sessions", n]) =
      cpPre (str ".tkube" ++ '/' :: str "sessions") ++ n
    have hshape : joinSegs [str ".tkube", str "sessions", n] =
        (str ".tkube" ++ '/' :: str "sessions") ++ '/' :: n := by
      show str ".tkube" ++ '/' :: (str "sessions" ++ '/' :: n) =
        (str ".tkube" ++ '/' :: str "sessions") ++ '/' :: n
      simp [List.append_assoc]
    rw [hshape, cleanPath_append_goodSeg _ n (by decide) hn]
  · rw [if_neg hh, if_neg hh]
    have hshape : joinSegs [home, str ".tkube", str "sessions", n] =
        (home ++ '/' :: (str ".tkube" ++ '/' :: str "sessions")) ++ '/' :: n := by
      show home ++ '/' :: (str ".tkube" ++ '/' :: (str "sessions" ++ '/' :: n)) =
        (home ++ '/' :: (str ".tkube" ++ '/' :: str "sessions")) ++ '/' :: n
      simp [List.append_assoc]
    rw [hshape, cleanPath_append_goodSeg _ n (by simp) hn]

/-- A hostname remainder that extends no version number: it begins neither
with a digit nor with a dot followed by a digit. -/
def extStop : Str → Bool
  | [] => true
  | [c] => !c.isDigit
  | c :: c2 :: _ => !c.isDigit && !(c = '.' && c2.isDigit)

/-- The head of an `extStop` remainder is not a digit. -/
lemma extStop_head (rest : Str) (h : extStop rest = true) :
    ∀ ch ∈ rest.take 1, ch.isDigit = false := by
  intro ch hch
  cases rest with
  | nil => simp at hch
  | cons c t =>
    have hc : ch = c := by simpa using hch
    subst hc
    cases t with
    | nil => simpa [extStop] using h
    | cons c2 t2 =>
      simp only [extStop, Bool.and_eq_true, Bool.not_eq_true'] at h
      exact h.1

/-- `takeWhile` runs through an all-satisfying prefix. -/
lemma takeWhile_all_append (p : Char → Bool) (l r : Str) (h : ∀ x ∈ l, p x = true) :
    (l ++ r).takeWhile p = l ++ r.takeWhile p := by
  induction l with
  | nil => rfl
  | cons a t ih =>
    have ha : p a = true := h a (List.mem_cons_self a t)
    show ((a :: t) ++ r).takeWhile p = (a :: t) ++ r.takeWhile p
    simp [List.takeWhile_cons, ha, ih (fun x hx => h x (List.mem_cons_of_mem _ hx))]

/-- `dropWhile` skips an all-satisfying prefix. -/
lemma dropWhile_all_append (p : Char → Bool) (l r : Str) (h : ∀ x ∈ l, p x = true) :
    (l ++ r).dropWhile p = r.dropWhile p := by
  induction l with
  | nil => rfl
  | cons a t ih =>
    have ha : p a = true := h a (List.mem_cons_self a t)
    show ((a :: t) ++ r).dropWhile p = r.dropWhile p
    simp [List.dropWhile_cons, ha, ih (fun x hx => h x (List.mem_cons_of_mem _ hx))]

/-- `matchDigits` captures exactly a maximal digit run. -/
lemma matchDigits_append (a r : Str) (ha : a ≠ [])
    (hall : ∀ ch ∈ a, ch.isDigit = true)
    (hr : ∀ ch ∈ r.take 1, ch.isDigit = false) :
    matchDigits (a ++ r) = some (a, r) := by
  have hr0 : r.takeWhile Char.isDigit = [] := by
    cases r with
    | nil => rfl
    | cons c t =>
      have hc : c.isDigit = false := hr c (by simp)
      simp [List.takeWhile_cons, hc]
  have hr1 : r.dropWhile Char.isDigit = r := by
    cases r with
    | nil => rfl
    | cons c t =>
      have hc : c.isDigit = false := hr c (by simp)
      simp [List.dropWhile_cons, hc]
  unfold matchDigits
  rw [takeWhile_all_append Char.isDigit a r hall, hr0,
    dropWhile_all_append Char.isDigit a r hall, hr1]
  simp [ha]

/-- `optDotNum` consumes a dot followed by a maximal digit run. -/
lemma optDotNum_dot (b r2 : Str) (hb : b ≠ [])
    (hball : ∀ ch ∈ b, ch.isDigit = true)
    (hr : ∀ ch ∈ r2.take 1, ch.isDigit = false) :
    optDotNum ('.' :: (b ++ r2)) = (some b, r2) := by
  simp only [optDotNum, if_true]
  rw [matchDigits_append b r2 hb hball hr]

/-- `optDotNum` consumes nothing at an `extStop` remainder. -/
lemma optDotNum_stop (rest : Str) (h : extStop rest = true) :
    optDotNum rest = (none, rest) := by
  cases rest with
  | nil => rfl
  | cons c t =>
    simp only [optDotNum]
    by_cases hc : c = '.'
    · subst hc
      rw [if_pos rfl]
      cases t with
      | nil => rfl
      | cons c2 t2 =>
        simp only [extStop, Bool.and_eq_true, Bool.not_eq_true'] at h
        have h2 : c2.isDigit = false := by
          rcases h with ⟨h1, h2⟩
          simpa using h2
        have hmd : matchDigits (c2 :: t2) = none := by
          simp [matchDigits, List.takeWhile_cons, h2]
        rw [hmd]
    · rw [if_neg hc]

/-- `numTail` on a single digit run. -/
lemma numTail_one (a rest : Str) (ha : a ≠ [])
    (hall : ∀ ch ∈ a, ch.isDigit = true) (hstop : extStop rest = true) :
    numTail (a ++ rest) = some ⟨a, none, none⟩ := by
  have h1 := matchDigits_append a rest ha hall (extStop_head rest hstop)
  have h2 := optDotNum_stop rest hstop
  simp [numTail, h1, h2]

/-- `numTail` on major.minor. -/
lemma numTail_two (a b rest : Str) (ha : a ≠ [])
    (hall : ∀ ch ∈ a, ch.isDigit = true) (hb : b ≠ [])
    (hball : ∀ ch ∈ b, ch.isDigit = true) (hstop : extStop rest = true) :
    numTail (a ++ '.' :: (b ++ rest)) = some ⟨a, some b, none⟩ := by
  have h1 := matchDigits_append a ('.' :: (b ++ rest)) ha hall (by intro ch hch; simp at hch; subst hch; decide)
  have h2 := optDotNum_dot b rest hb hball (extStop_head rest hstop)
  have h3 := optDotNum_stop rest hstop
  simp [numTail, h1, h2, h3]

/-- `numTail` on major.minor.patch. -/
lemma numTail_three (a b c rest : Str) (ha : a ≠ [])
    (hall : ∀ ch ∈ a, ch.isDigit = true) (hb : b ≠ [])
    (hball : ∀ ch ∈ b, ch.isDigit = true) (hc : c ≠ [])
    (hcall : ∀ ch ∈ c, ch.isDigit = true) (hstop : extStop rest = true) :
    numTail (a ++ '.' :: (b ++ '.' :: (c ++ rest))) = some ⟨a, some b, some c⟩ := by
  have h1 := matchDigits_append a ('.' :: (b ++ '.' :: (c ++ rest))) ha hall
    (by intro ch hch; simp at hch; subst hch; decide)
  have h2 := optDotNum_dot b ('.' :: (c ++ rest)) hb hball
    (by intro ch hch; simp at hch; subst hch; decide)
  have h3 := optDotNum_dot c rest hc hcall (extStop_head rest hstop)
  simp [numTail, h1, h2, h3]

/-- `stripPre` strips an exact prefix. -/
lemma stripPre_append (p y : Str) : stripPre p (p ++ y) = some y := by
  induction p with
  | nil => rfl
  | cons a t ih => simp [stripPre, ih]

/-- The first pattern at position 0, with the optional `v` present. -/
lemma tryTeleportDash_v (X : Str) :
    tryTeleportDash (str "teleport-" ++ ('v' :: X)) = numTail X := by
  unfold tryTeleportDash
  rw [stripPre_append]
  show vNumTail ('v' :: X) = numTail X
  simp only [vNumTail, if_true]

/-- A leftmost scan stops at a position-0 match. -/
lemma scanFor_first (f : Str → Option VerGroups) (s : Str) (g : VerGroups)
    (h : f s = some g) : scanFor f s = some g := by
  cases s <;> simp [scanFor, h]

/-- Extraction through a successful first-pattern scan. -/
lemma extract_pat1 (osEnv : Str → Str) (s : Str) (g : VerGroups)
    (h : scanFor tryTeleportDash s = some g) :
    extractVersionFromProxy osEnv s = some (buildVersion g) := by
  simp [extractVersionFromProxy, h]

/-! ## Claims -/

/-- C4: the secondary .pkg descriptor's naming threshold.  The claim (and
the code's own comment "v16 and below use tsh-X.Y.Z.pkg") demand a numeric
major-version threshold of 17, but `getPkgPackageInfo` compares the major
component as a Go string (`majorVersionStr >= "17"`), so version "9.0.0" —
whose major 9 is numerically below 17 — resolves to teleport-9.0.0.pkg
instead of the legacy tsh-9.0.0.pkg.  (Versions with two-digit majors,
e.g. 16.4.0 and 17.7.1, happen to be named as documented.) -/
theorem C4_pkg_threshold_string_compare :
    getPkgPackageInfo (str "9.0.0") =
      some ⟨str "9.0.0", str "https://cdn.teleport.dev/teleport-9.0.0.pkg", str "pkg"⟩ ∧
    (9 : Nat) < 17 ∧
    getPkgPackageInfo (str "16.4.0") =
      some ⟨str "16.4.0", str "https://cdn.teleport.dev/tsh-16.4.0.pkg", str "pkg"⟩ ∧
    getPkgPackageInfo (str "17.7.1") =
      some ⟨str "17.7.1", str "https://cdn.teleport.dev/teleport-17.7.1.pkg", str "pkg"⟩ := by
  decide

/-- C5 (counterexample): normalization does not collapse a duplicated
product-name prefix.  `normalizeVersion "teleport-teleport-14.0.0"` still
starts with the product name after the first strip, yet it is not stripped
again: the result is "teleport-14.0.0", not "14.0.0". -/
theorem C5_no_double_strip :
    normalizeVersion (str "teleport-teleport-14.0.0") = str "teleport-14.0.0" ∧
    startsWith (str "teleport-") (normalizeVersion (str "teleport-teleport-14.0.0")) = true ∧
    normalizeVersion (str "teleport-teleport-14.0.0") ≠ str "14.0.0" := by
  decide

/-- C5 (amended): normalization strips a leading "v" and then at most one
product-name prefix ("teleport-", then "tsh-"), each once; a doubly
prefixed raw value keeps its second prefix.  The doubly prefixed hostname
"teleport-teleport-14.0.0.host" nevertheless detects as "14.0.0", because
hostname pattern extraction scans for the leftmost prefix-plus-digits
occurrence, which is the second "teleport-". -/
theorem C5_single_strip_and_hostname_scan :
    DetectTSHVersion (fun _ => none) (fun _ => []) (str "teleport-teleport-14.0.0.host") =
      some (str "14.0.0") ∧
    normalizeVersion (str "v14.0.0") = str "14.0.0" ∧
    normalizeVersion (str "vteleport-14.0.0") = str "14.0.0" ∧
    normalizeVersion (str "tsh-tsh-14.0.0") = str "tsh-14.0.0" := by
  decide

/-- C6: hostname pattern extraction returns exactly the dot-separated
numeric components present in the hostname, neither padded nor truncated:
for every hostname of the form product-prefix + optional v + major
(resp. major.minor, major.minor.patch) followed by a remainder that
extends no component, the detected version is precisely those components;
with the remote query unreachable, detection returns the same. -/
theorem C6_hostname_precision (osEnv : Str → Str) (a b c rest : Str)
    (ha : a ≠ []) (hall : ∀ ch ∈ a, ch.isDigit = true)
    (hb : b ≠ []) (hball : ∀ ch ∈ b, ch.isDigit = true)
    (hc : c ≠ []) (hcall : ∀ ch ∈ c, ch.isDigit = true)
    (hstop : extStop rest = true) :
    extractVersionFromProxy osEnv (str "teleport-v" ++ (a ++ rest)) = some a ∧
    extractVersionFromProxy osEnv (str "teleport-v" ++ (a ++ '.' :: (b ++ rest))) =
      some (a ++ '.' :: b) ∧
    extractVersionFromProxy osEnv
        (str "teleport-v" ++ (a ++ '.' :: (b ++ '.' :: (c ++ rest)))) =
      some (a ++ '.' :: b ++ '.' :: c) ∧
    DetectTSHVersion (fun _ => none) osEnv (str "teleport-v" ++ (a ++ rest)) =
      some a := by
  have e1 : tryTeleportDash (str "teleport-v" ++ (a ++ rest)) =
      some ⟨a, none, none⟩ := by
    have h := tryTeleportDash_v (a ++ rest)
    rw [numTail_one a rest ha hall hstop] at h
    exact h
  have e2 : tryTeleportDash (str "teleport-v" ++ (a ++ '.' :: (b ++ rest))) =
      some ⟨a, some b, none⟩ := by
    have h := tryTeleportDash_v (a ++ '.' :: (b ++ rest))
    rw [numTail_two a b rest ha hall hb hball hstop] at h
    exact h
  have e3 : tryTeleportDash (str "teleport-v" ++ (a ++ '.' :: (b ++ '.' :: (c ++ rest)))) =
      some ⟨a, some b, some c⟩ := by
    have h := tryTeleportDash_v (a ++ '.' :: (b ++ '.' :: (c ++ rest)))
    rw [numTail_three a b c rest ha hall hb hball hc hcall hstop] at h
    exact h
  have r1 := extract_pat1 osEnv _ _ (scanFor_first _ _ _ e1)
  have r2 := extract_pat1 osEnv _ _ (scanFor_first _ _ _ e2)
  have r3 := extract_pat1 osEnv _ _ (scanFor_first _ _ _ e3)
  exact ⟨r1, r2, r3, r1⟩

/-- Witness for C6: the claim's two concrete scenarios — full precision
"teleport-v14.2.1.host" detects as "14.2.1" (not "14.2"), and the
major-only "teleport-v14.prod.company.com:443" with the remote query
unreachable detects as "14". -/
theorem C6_hostname_precision_w :
    extractVersionFromProxy (fun _ => []) (str "teleport-v14.2.1.host") =
      some (str "14.2.1") ∧
    DetectTSHVersion (fun _ => none) (fun _ => [])
      (str "teleport-v14.prod.company.com:443") = some (str "14") := by
  constructor
  · exact (C6_hostname_precision (fun _ => []) (str "14") (str "2") (str "1")
      (str ".host") (by decide) (by decide) (by decide) (by decide) (by decide)
      (by decide) (by decide)).2.2.1
  · exact (C6_hostname_precision (fun _ => []) (str "14") (str "9") (str "9")
      (str ".prod.company.com:443") (by decide) (by decide) (by decide)
      (by decide) (by decide) (by decide) (by decide)).2.2.2

/-- C7: `GetSessionState` parses the status output as specified: the result
is authenticated exactly when the output contains a "logged in" or
"Valid until" marker; on the claim's scenario output the timestamp and the
bracketed remaining-duration token are extracted
(isAuthenticated = true, validUntil = "2099-01-01",
timeRemaining = "11h29m0s", isExpired = false); and an explicit "EXPIRED"
marker in the "Valid until" line overrides the duration extraction. -/
theorem C7_session_state_parsing :
    (∀ out : Str, (parseSessionOutput out).isAuthenticated =
        (containsSub (str "logged in") out || containsSub (str "Valid until") out)) ∧
    GetSessionInfo (some (str "Proxy: example.com\nValid until: 2099-01-01 [valid for 11h29m0s]\n")) =
      ⟨true, str "2099-01-01", str "11h29m0s", false⟩ ∧
    GetSessionInfo (some (str "Valid until: 2020-01-01 [EXPIRED]")) =
      ⟨true, str "2020-01-01 [EXPIRED]", str "EXPIRED", true⟩ := by
  refine ⟨fun out => ?_, by decide, by decide⟩
  unfold parseSessionOutput
  by_cases h : (containsSub (str "logged in") out ∨ containsSub (str "Valid until") out)
  · rw [if_neg (fun hc => hc h)]
    rw [scanValidUntil_auth]
    rcases h with h | h <;> simp [h]
  · rw [if_pos h]
    simp only [not_or, Bool.not_eq_true] at h
    simp [emptySessionInfo, h.1, h.2]

/-! ### Concrete sample states for witnesses -/

/-- A sample registry root. -/
def sampleIns : TSHInstaller := ⟨str "/h/.tkube/tsh"⟩

/-- A sample world: version 14.0.0 installed and healthy, version 15.0.0's
directory present but with no binary. -/
def sampleWorld : World :=
  { files := fun p => decide (p = str "/h/.tkube/tsh/14.0.0/tsh")
    execs := fun p => decide (p = str "/h/.tkube/tsh/14.0.0/tsh")
    dirs := fun p => decide (p = str "/h/.tkube/tsh")
    entries := [⟨str "14.0.0", true⟩, ⟨str "15.0.0", true⟩]
    readDirOk := true
    net := fun _ => .ok
    extractOk := fun _ => true
    hasTsh := fun _ => true
    copyOk := fun _ => true
    chmodOk := fun _ => true
    probeOk := fun p => decide (p = str "/h/.tkube/tsh/14.0.0/tsh")
    downloads := 0 }

/-- C1: a version is installed iff its canonical binary file exists, is
executable, and the live probe succeeds; and the registry scan returns
exactly the registry subdirectories whose version satisfies that
predicate, so a present-but-broken binary never appears in the result. -/
theorem C1_verified_registry_scan (ins : TSHInstaller) (w : World) (v : Str)
    (vs : List Str) (h : GetInstalledVersions ins w = some vs) :
    (IsVersionInstalled ins w v =
       (w.files (joinPath [joinPath [ins.baseDir, v], str "tsh"]) &&
        w.execs (joinPath [joinPath [ins.baseDir, v], str "tsh"]) &&
        w.probeOk (joinPath [joinPath [ins.baseDir, v], str "tsh"]))) ∧
    (v ∈ vs ↔ (w.dirs ins.baseDir = true ∧ (⟨v, true⟩ : DirEntry) ∈ w.entries ∧
               IsVersionInstalled ins w v = true)) ∧
    (IsVersionInstalled ins w v = false → v ∉ vs) := by
  have hchar : IsVersionInstalled ins w v =
      (w.files (joinPath [joinPath [ins.baseDir, v], str "tsh"]) &&
       w.execs (joinPath [joinPath [ins.baseDir, v], str "tsh"]) &&
       w.probeOk (joinPath [joinPath [ins.baseDir, v], str "tsh"])) := by
    cases hf : w.files (joinPath [joinPath [ins.baseDir, v], str "tsh"]) <;>
      simp [IsVersionInstalled, verifyTSHBinary, hf]
  have hmem : v ∈ vs ↔ (w.dirs ins.baseDir = true ∧ (⟨v, true⟩ : DirEntry) ∈ w.entries ∧
      IsVersionInstalled ins w v = true) := by
    unfold GetInstalledVersions at h
    by_cases hd : w.dirs ins.baseDir = false
    · rw [if_pos hd] at h
      obtain rfl : ([] : List Str) = vs := by simpa using h
      simp [hd]
    · rw [if_neg hd] at h
      have hdt : w.dirs ins.baseDir = true := by
        revert hd; cases w.dirs ins.baseDir <;> simp
      by_cases hr : w.readDirOk = false
      · rw [if_pos hr] at h; simp at h
      · rw [if_neg hr] at h
        obtain rfl :
            (w.entries.filter fun e => e.isDir && IsVersionInstalled ins w e.name).map
              (·.name) = vs := by simpa using h
        simp only [hdt, true_and, List.mem_map, List.mem_filter, Bool.and_eq_true]
        constructor
        · rintro ⟨e, ⟨hee, hdir, hinst⟩, rfl⟩
          have : e = ⟨e.name, true⟩ := by cases e; simp_all
          exact ⟨this ▸ hee, hinst⟩
        · rintro ⟨hee, hinst⟩
          exact ⟨⟨v, true⟩, ⟨hee, rfl, hinst⟩, rfl⟩
  refine ⟨hchar, hmem, fun hbad hin => ?_⟩
  have := (hmem.mp hin).2.2
  rw [hbad] at this
  exact Bool.false_ne_true this

/-- Witness for C1 at a concrete registry: 15.0.0's directory is listed in
the registry but its binary is absent, and the scan returns exactly
[14.0.0]. -/
theorem C1_verified_registry_scan_w :
    (str "14.0.0" ∈ [str "14.0.0"] ↔
      (sampleWorld.dirs sampleIns.baseDir = true ∧
       (⟨str "14.0.0", true⟩ : DirEntry) ∈ sampleWorld.entries ∧
       IsVersionInstalled sampleIns sampleWorld (str "14.0.0") = true)) ∧
    (IsVersionInstalled sampleIns sampleWorld (str "15.0.0") = false →
      str "15.0.0" ∉ [str "14.0.0"]) :=
  ⟨(C1_verified_registry_scan sampleIns sampleWorld (str "14.0.0")
      [str "14.0.0"] (by decide)).2.1,
   (C1_verified_registry_scan sampleIns sampleWorld (str "15.0.0")
      [str "14.0.0"] (by decide)).2.2⟩

/-- C2: `EnsureInstalled` (AutoInstallForEnvironment) is idempotent: an
already verified-installed version returns success immediately with the
world unchanged and no download attempted, so two consecutive calls
perform no network download at all (in particular, at most one). -/
theorem C2_ensure_installed_idempotent (goos goarch : Str) (ins : TSHInstaller)
    (envName version : Str) (w : World)
    (h : IsVersionInstalled ins w version = true) :
    AutoInstallForEnvironment goos goarch ins envName version w = (w, none) ∧
    AutoInstallForEnvironment goos goarch ins envName version
        (AutoInstallForEnvironment goos goarch ins envName version w).1 = (w, none) ∧
    (AutoInstallForEnvironment goos goarch ins envName version
        (AutoInstallForEnvironment goos goarch ins envName version w).1).1.downloads =
      w.downloads := by
  have h1 : AutoInstallForEnvironment goos goarch ins envName version w = (w, none) := by
    simp [AutoInstallForEnvironment, h]
  refine ⟨h1, ?_, ?_⟩ <;> rw [h1]
  · exact h1
  · rw [h1]

/-- Witness for C2: the sample world's installed 14.0.0 is ensured twice
with no state change and no download. -/
theorem C2_ensure_installed_idempotent_w :
    AutoInstallForEnvironment (str "linux") (str "amd64") sampleIns
      (str "prod") (str "14.0.0") sampleWorld = (sampleWorld, none) :=
  (C2_ensure_installed_idempotent (str "linux") (str "amd64") sampleIns
    (str "prod") (str "14.0.0") sampleWorld (by decide)).1

/-- A world with an empty filesystem and all step oracles succeeding. -/
def blankWorld : World :=
  { files := fun _ => false
    execs := fun _ => false
    dirs := fun _ => false
    entries := []
    readDirOk := true
    net := fun _ => DlResult.ok
    extractOk := fun _ => true
    hasTsh := fun _ => true
    copyOk := fun _ => true
    chmodOk := fun _ => true
    probeOk := fun _ => false
    downloads := 0 }

/-- A world whose downloads fail while the body is being copied to disk. -/
def c3World : World := { blankWorld with net := fun _ => DlResult.copyErr }

/-- A world whose downloads succeed but whose archive extraction fails. -/
def c3bWorld : World := { blankWorld with extractOk := fun _ => false }

/-- The primary linux/amd64 package descriptor for version 14.1.0
(`getPackageInfo`'s output). -/
def c3Pkg : PackageInfo :=
  ⟨str "14.1.0",
   str "https://cdn.teleport.dev/teleport-v14.1.0-linux-x86_64-bin.tar.gz",
   str "tar.gz"⟩

/-- The version directory of 14.1.0 under the sample registry root. -/
def c3Vd : Str := joinPath [sampleIns.baseDir, str "14.1.0"]

/-- C3 (counterexample): a download that fails while copying the response
body to disk returns the error with the partially written scratch archive
still inside the target version directory — the directory does not contain
zero files afterward (though the version is still not verified-installed).
The Go code's `downloadPackage` has no removal on this path and
`tryInstallPackage` removes the archive only after extraction failures. -/
theorem C3_download_failure_leaves_partial_archive :
    c3Pkg = (getPackageInfo (str "linux") (str "amd64") (str "14.1.0")).getD c3Pkg ∧
    (tryInstallPackage c3Pkg c3Vd c3World).2 = some InstallErr.download ∧
    (tryInstallPackage c3Pkg c3Vd c3World).1.files
      (joinPath [c3Vd, str "teleport-14.1.0.tar.gz"]) = true ∧
    startsWith (c3Vd ++ ['/']) (joinPath [c3Vd, str "teleport-14.1.0.tar.gz"]) = true ∧
    IsVersionInstalled sampleIns (tryInstallPackage c3Pkg c3Vd c3World).1
      (str "14.1.0") = false := by
  decide

/-- C3 (amended): cleanup holds for extraction and binary-location
failures — the scratch archive and the temporary extraction tree are
removed, leaving the filesystem as before (so an initially empty version
directory holds zero files), while a mid-copy download failure leaves the
partial scratch archive behind; in every failing attempt on a fresh
target, the canonical binary never gains the executable bit, so
verification still reports not-installed afterward. -/
theorem C3_failure_cleanup (pkg : PackageInfo) (versionDir packagePath tshPath : Str)
    (w : World)
    (hpp : packagePath = joinPath [versionDir, str "teleport-" ++ pkg.version ++ '.' :: pkg.ext])
    (htp : tshPath = joinPath [versionDir, str "tsh"]) :
    ((w.net pkg.url = DlResult.ok ∧
      (w.extractOk packagePath = false ∨ w.hasTsh packagePath = false)) →
      ((tryInstallPackage pkg versionDir w).2.isSome = true ∧
       (∀ p, (tryInstallPackage pkg versionDir w).1.files p =
          if p = packagePath then false else w.files p) ∧
       (∀ p, (tryInstallPackage pkg versionDir w).1.execs p = w.execs p))) ∧
    (w.net pkg.url = DlResult.copyErr →
      ((tryInstallPackage pkg versionDir w).2 = some InstallErr.download ∧
       (tryInstallPackage pkg versionDir w).1.files packagePath = true)) ∧
    ((w.execs tshPath = false ∧ (tryInstallPackage pkg versionDir w).2.isSome = true) →
      verifyTSHBinary (tryInstallPackage pkg versionDir w).1 tshPath = false) := by
  subst hpp htp
  refine ⟨?_, ?_, ?_⟩
  · rintro ⟨hnet, hcase⟩
    cases hex : w.extractOk (joinPath [versionDir, str "teleport-" ++ pkg.version ++ '.' :: pkg.ext]) with
    | false =>
      rw [tip_extractFail pkg versionDir w hnet hex]
      exact ⟨rfl, fun p => removeFile_addFile_files _ p _,
        fun p => removeFile_addFile_execs _ p _⟩
    | true =>
      have hht : w.hasTsh (joinPath [versionDir, str "teleport-" ++ pkg.version ++ '.' :: pkg.ext]) = false := by
        rcases hcase with hcase | hcase
        · rw [hex] at hcase; exact absurd hcase (by simp)
        · exact hcase
      rw [tip_noTsh pkg versionDir w hnet hex hht]
      exact ⟨rfl, fun p => removeFile_addFile_files _ p _,
        fun p => removeFile_addFile_execs _ p _⟩
  · intro hnet
    rw [tip_copyErr pkg versionDir w hnet]
    exact ⟨rfl, by simp [addFile]⟩
  · rintro ⟨hex0, hfail⟩
    cases hnet : w.net pkg.url with
    | connErr =>
      rw [tip_connErr pkg versionDir w hnet]
      simp [verifyTSHBinary, hex0]
    | httpErr =>
      rw [tip_httpErr pkg versionDir w hnet]
      simp [verifyTSHBinary, hex0]
    | copyErr =>
      rw [tip_copyErr pkg versionDir w hnet]
      simp [verifyTSHBinary, addFile, hex0]
    | ok =>
      cases hex : w.extractOk (joinPath [versionDir, str "teleport-" ++ pkg.version ++ '.' :: pkg.ext]) with
      | false =>
        rw [tip_extractFail pkg versionDir w hnet hex]
        simp [verifyTSHBinary, removeFile, addFile, hex0]
      | true =>
        cases hht : w.hasTsh (joinPath [versionDir, str "teleport-" ++ pkg.version ++ '.' :: pkg.ext]) with
        | false =>
          rw [tip_noTsh pkg versionDir w hnet hex hht]
          simp [verifyTSHBinary, removeFile, addFile, hex0]
        | true =>
          cases hcp : w.copyOk (joinPath [versionDir, str "teleport-" ++ pkg.version ++ '.' :: pkg.ext]) with
          | false =>
            rw [tip_copyFail pkg versionDir w hnet hex hht hcp]
            simp [verifyTSHBinary, removeFile, addFile, hex0]
          | true =>
            cases hch : w.chmodOk (joinPath [versionDir, str "tsh"]) with
            | false =>
              rw [tip_chmodFail pkg versionDir w hnet hex hht hcp hch]
              simp [verifyTSHBinary, removeFile, addFile, hex0]
            | true =>
              rw [tip_success pkg versionDir w hnet hex hht hcp hch] at hfail
              simp at hfail

/-- Witness for C3's amended cleanup: the injected extraction failure on
the fresh world fails the attempt and leaves the filesystem empty. -/
theorem C3_failure_cleanup_w :
    (tryInstallPackage c3Pkg c3Vd c3bWorld).2.isSome = true ∧
    (tryInstallPackage c3Pkg c3Vd c3bWorld).1.files
      (joinPath [c3Vd, str "teleport-14.1.0.tar.gz"]) = false :=
  have h := (C3_failure_cleanup c3Pkg c3Vd _ _ c3bWorld rfl rfl).1
    ⟨by decide, Or.inl (by decide)⟩
  ⟨h.1, by rw [h.2.1 (joinPath [c3Vd, str "teleport-14.1.0.tar.gz"])]; decide⟩

/-- C8: the effective identity resolves by precedence, first match wins:
the environment-specific identity if non-empty, else the configured
default identity if non-empty, else the local OS username (the `USER`
variable, else the base name of the home directory), else the literal
"unknown" when no OS username can be determined. -/
theorem C8_effective_identity_precedence (config : Config) (os : OSEnv) (env : Str) :
    (∀ ec, lookupEnv config env = some ec → ec.user ≠ [] →
      getEffectiveUser (some config) os env = ec.user) ∧
    (∀ ec, lookupEnv config env = some ec → ec.user = [] → config.defaultUser ≠ [] →
      getEffectiveUser (some config) os env = config.defaultUser) ∧
    (lookupEnv config env = none → config.defaultUser ≠ [] →
      getEffectiveUser (some config) os env = config.defaultUser) ∧
    (∀ ec, lookupEnv config env = some ec → ec.user = [] → config.defaultUser = [] →
      getEffectiveUser (some config) os env = getSystemUser os) ∧
    (lookupEnv config env = none → config.defaultUser = [] →
      getEffectiveUser (some config) os env = getSystemUser os) ∧
    (os.userVar ≠ [] → getSystemUser os = os.userVar) ∧
    (os.userVar = [] → os.homeDir = none → getSystemUser os = str "unknown") ∧
    (∀ h, os.userVar = [] → os.homeDir = some h → baseName h ≠ [] →
      getSystemUser os = baseName h) := by
  refine ⟨?_, ?_, ?_, ?_, ?_, ?_, ?_, ?_⟩
  · intro ec hec hu
    simp [getEffectiveUser, hec, hu]
  · intro ec hec hu hd
    simp [getEffectiveUser, hec, hu, hd]
  · intro hec hd
    simp [getEffectiveUser, hec, hd]
  · intro ec hec hu hd
    simp [getEffectiveUser, hec, hu, hd]
  · intro hec hd
    simp [getEffectiveUser, hec, hd]
  · intro hu
    simp [getSystemUser, hu]
  · intro hu hh
    simp [getSystemUser, hu, hh]
  · intro h hu hh hb
    simp [getSystemUser, hu, hh, hb]

/-- Witness for C8 at a concrete configuration: the environment-specific
user wins, and with it absent the default user wins. -/
theorem C8_effective_identity_precedence_w :
    getEffectiveUser
      (some ⟨[(str "prod", ⟨str "p.example.com:443", str "14.0.0", str "alice"⟩)],
             str "deflt", true⟩)
      ⟨str "os-user", none⟩ (str "prod") = str "alice" ∧
    getSystemUser ⟨[], none⟩ = str "unknown" :=
  ⟨(C8_effective_identity_precedence
      ⟨[(str "prod", ⟨str "p.example.com:443", str "14.0.0", str "alice"⟩)], str "deflt", true⟩
      ⟨str "os-user", none⟩ (str "prod")).1
      ⟨str "p.example.com:443", str "14.0.0", str "alice"⟩ (by decide) (by decide),
   (C8_effective_identity_precedence
      ⟨[], [], true⟩ ⟨[], none⟩ (str "x")).2.2.2.2.2.2.1 rfl rfl⟩

/-- A concrete configuration world for C9: environment "e" has no pinned
version, detection on its proxy yields "14", and 14 is already installed. -/
def c9World : CWorld :=
  { cfg := ⟨[(str "e", ⟨str "teleport-v14.example.com:443", [], []⟩)], [], true⟩
    loadOk := true
    saveOk := true
    detect := fun p => if p = str "teleport-v14.example.com:443" then some (str "14") else none
    installed := fun v => decide (v = str "14")
    installOk := fun _ => true }

/-- C9 (counterexample): the persisted environment configuration is not
read-only to the core.  `EnsureTSHVersion` on an environment with no
pinned version persists the auto-detected version: afterwards the stored
environment record differs (its pinned version changed from "" to "14"),
with the operation reporting success. -/
theorem C9_config_written_by_ensure :
    (EnsureTSHVersion c9World (str "e")).2 = true ∧
    lookupEnv c9World.cfg (str "e") =
      some ⟨str "teleport-v14.example.com:443", [], []⟩ ∧
    lookupEnv (EnsureTSHVersion c9World (str "e")).1.cfg (str "e") =
      some ⟨str "teleport-v14.example.com:443", str "14", []⟩ ∧
    (EnsureTSHVersion c9World (str "e")).1.cfg ≠ c9World.cfg := by
  decide

/-- C9 (amended): `EnsureTSHVersion` leaves the stored environment mapping
unchanged whenever the environment's pinned version is already set (or the
environment is unknown, or loading fails); in every case it never changes
any environment's proxy or identity, and never touches any environment
other than the one being ensured — only the ensured environment's empty
pinned-version field can be filled in with the detected version. -/
theorem C9_config_frame (cw : CWorld) (env : Str) :
    ((∀ ec, lookupEnv cw.cfg env = some ec → ec.tshVersion ≠ []) →
      (EnsureTSHVersion cw env).1.cfg = cw.cfg) ∧
    (lookupEnv cw.cfg env = none → (EnsureTSHVersion cw env).1.cfg = cw.cfg) ∧
    (cw.loadOk = false → (EnsureTSHVersion cw env).1.cfg = cw.cfg) ∧
    (∀ n, ((lookupEnv (EnsureTSHVersion cw env).1.cfg n).map EnvConfig.proxy =
            (lookupEnv cw.cfg n).map EnvConfig.proxy) ∧
          ((lookupEnv (EnsureTSHVersion cw env).1.cfg n).map EnvConfig.user =
            (lookupEnv cw.cfg n).map EnvConfig.user)) ∧
    (∀ n, n ≠ env →
      lookupEnv (EnsureTSHVersion cw env).1.cfg n = lookupEnv cw.cfg n) := by
  have hcfg : (EnsureTSHVersion cw env).1.cfg = cw.cfg ∨
      (∃ ec ver, lookupEnv cw.cfg env = some ec ∧ ec.tshVersion = [] ∧
        (EnsureTSHVersion cw env).1.cfg = setEnvVersion cw.cfg env ver) := by
    by_cases hl : cw.loadOk = false
    · exact Or.inl (by simp [EnsureTSHVersion, hl])
    · cases hec : lookupEnv cw.cfg env with
      | none => exact Or.inl (by simp [EnsureTSHVersion, hl, hec])
      | some ec =>
        by_cases hv : ec.tshVersion = []
        · cases hdet : cw.detect ec.proxy with
          | none => exact Or.inl (by simp [EnsureTSHVersion, hl, hec, hv, hdet])
          | some ver =>
            by_cases hs : cw.saveOk = false
            · exact Or.inl (by
                simp [EnsureTSHVersion, UpdateEnvironmentTSHVersion, hl, hec, hv, hdet, hs])
            · refine Or.inr ⟨ec, ver, rfl, hv, ?_⟩
              have hupd : UpdateEnvironmentTSHVersion cw env ver =
                  ({ cw with cfg := setEnvVersion cw.cfg env ver }, true) := by
                simp [UpdateEnvironmentTSHVersion, hl, hec, hs]
              simp only [EnsureTSHVersion, hl, hec, hv, hdet, hupd,
                if_true, ite_true, ite_false]
              split
              · simp_all
              · split <;> rfl
        · exact Or.inl (by
            simp only [EnsureTSHVersion]
            rw [if_neg hl, hec]
            dsimp only
            rw [if_neg hv]
            split <;> rfl)
  refine ⟨?_, ?_, ?_, ?_, ?_⟩
  · intro hver
    rcases hcfg with h | ⟨ec, ver, hec, hv, h⟩
    · exact h
    · exact absurd hv (hver ec hec)
  · intro hnone
    rcases hcfg with h | ⟨ec, ver, hec, hv, h⟩
    · exact h
    · rw [hnone] at hec
      exact absurd hec (by simp)
  · intro hl
    simp [EnsureTSHVersion, hl]
  · intro n
    rcases hcfg with h | ⟨ec, ver, hec, hv, h⟩
    · rw [h]
      exact ⟨rfl, rfl⟩
    · rw [h, lookupEnv_setEnvVersion]
      by_cases hn : n = env
      · rw [if_pos hn]
        cases lookupEnv cw.cfg n <;> simp
      · rw [if_neg hn]
        exact ⟨rfl, rfl⟩
  · intro n hn
    rcases hcfg with h | ⟨ec, ver, hec, hv, h⟩
    · rw [h]
    · rw [h, lookupEnv_setEnvVersion, if_neg hn]

/-- The C9 world with the version already pinned. -/
def c9bWorld : CWorld :=
  { c9World with
      cfg := ⟨[(str "e", ⟨str "teleport-v14.example.com:443", str "14", []⟩)], [], true⟩ }

/-- C10 (counterexample): the raw path join is not injective on every pair
of distinct environment names free of path separators and
parent-directory segments: the names "" and "." contain no separator and
no parent segment, are distinct, and resolve to the same session
directory. -/
theorem C10_session_dir_collision :
    getSessionDir (some (str "/home/u")) (str "") =
      getSessionDir (some (str "/home/u")) (str ".") ∧
    str "" ≠ str "." ∧
    ('/' ∉ str "") ∧ ('/' ∉ str ".") ∧
    str "" ≠ str ".." ∧ str "." ≠ str ".." := by
  decide

/-- C10 (amended): the session-directory mapping is injective for every
pair of distinct environment names that contain no path separator and are
none of "", "." and ".." — but not for arbitrary names: "x/../y" and "y"
resolve to the same credential directory, so isolation holds only under
that restriction. -/
theorem C10_session_dir_isolation (home n1 n2 : Str)
    (h1 : goodSeg n1) (h2 : goodSeg n2) (hne : n1 ≠ n2) :
    getSessionDir (some home) n1 ≠ getSessionDir (some home) n2 ∧
    getSessionDir (some (str "/home/u")) (str "x/../y") =
      getSessionDir (some (str "/home/u")) (str "y") := by
  refine ⟨fun heq => ?_, by decide⟩
  rw [getSessionDir_good home n1 h1, getSessionDir_good home n2 h2] at heq
  exact hne (List.append_cancel_left heq)

/-- Witness for C10's amended isolation at two concrete names. -/
theorem C10_session_dir_isolation_w :
    getSessionDir (some (str "/home/u")) (str "prod") ≠
      getSessionDir (some (str "/home/u")) (str "test") :=
  (C10_session_dir_isolation (str "/home/u") (str "prod") (str "test")
    (by decide) (by decide) (by decide)).1

/-- Witness for C9's frame property: with the version already pinned, the
stored configuration is untouched, and another environment's record is
never affected. -/
theorem C9_config_frame_w :
    (EnsureTSHVersion c9bWorld (str "e")).1.cfg = c9bWorld.cfg ∧
    lookupEnv (EnsureTSHVersion c9World (str "e")).1.cfg (str "other") =
      lookupEnv c9World.cfg (str "other") :=
  ⟨(C9_config_frame c9bWorld (str "e")).1 (fun ec hec => by
      have : ec = ⟨str "teleport-v14.example.com:443", str "14", []⟩ := by
        have h0 : lookupEnv c9bWorld.cfg (str "e") =
            some ⟨str "teleport-v14.example.com:443", str "14", []⟩ := by decide
        rw [h0] at hec
        exact (Option.some.injEq _ _).mp hec.symm
      rw [this]
      decide),
   (C9_config_frame c9World (str "e")).2.2.2.2 (str "other") (by decide)⟩

end Tkube
